import Mathlib

/-!
# Verification of the noc-ai-operator approval pipeline

A shallow embedding of the event-processing pipeline and approval state
machine of the `noc-ai-operator` repository, together with theorems that
settle the specification's claims against it.

Embedded modules:
* `src/core/models.py` — the data model (`EventSeverity`, `ActionType`,
  `ActionStatus`, `Event`, `AIAnalysis`, `RemediationAction`).
* `src/workflows/approval.py` — `ApprovalConfig`, `ApprovalRequest`,
  `ApprovalService` (policy evaluator, request/approve/reject, expiry sweep).
* `src/core/event_processor.py` — `EventProcessor` (action execution,
  legacy approve/reject, ledger callbacks).

Modelling conventions:
* Python `datetime` values are abstract instants, modelled as `Nat`
  (minutes); `timedelta(minutes=m)` adds `m`.
* Python `float` confidence scores are modelled as `ℚ`: the code only
  compares them, never does arithmetic, so order is the only observable.
  Literals such as `0.85` are written `mkRat 85 100` so that they reduce
  in the kernel.
* Python dicts keyed by strings are association lists (`List (String × _)`)
  with first-match lookup; insertion overwrites an existing key.
* A Python `raise`/uncaught exception is `Except.error` carrying a
  `PyError`; functions that cannot raise return plain values.
* `uuid4()` results and the current clock are passed in as parameters.
* Reason strings follow the Python f-strings, except that `ℚ` confidence
  values are rendered with `toString` instead of Python's `:.2f` format.
-/

set_option linter.unusedVariables false

namespace NocAI

/-! ## Data model (`src/core/models.py`) -/

/-- `EventSeverity` from `src/core/models.py`. -/
inductive EventSeverity where
  | critical
  | warning
  | info
deriving DecidableEq, Repr

/-- The `.value` string of an `EventSeverity` member (it is a `str` enum). -/
def EventSeverity.value : EventSeverity → String
  | .critical => "critical"
  | .warning => "warning"
  | .info => "info"

/-- `EventSource` from `src/core/models.py`. -/
inductive EventSource where
  | alertmanager
  | syslog
  | snmp
  | prometheus
  | custom
deriving DecidableEq, Repr

/-- `ActionType` from `src/core/models.py`. -/
inductive ActionType where
  | k8s_restart_pod
  | k8s_scale_deployment
  | k8s_rollback
  | ansible_playbook
  | ssh_command
  | snmp_set
  | escalate
  | no_action
deriving DecidableEq, Repr

/-- The `.value` string of an `ActionType` member (it is a `str` enum). -/
def ActionType.value : ActionType → String
  | .k8s_restart_pod => "k8s_restart_pod"
  | .k8s_scale_deployment => "k8s_scale_deployment"
  | .k8s_rollback => "k8s_rollback"
  | .ansible_playbook => "ansible_playbook"
  | .ssh_command => "ssh_command"
  | .snmp_set => "snmp_set"
  | .escalate => "escalate"
  | .no_action => "no_action"

/-- `ActionStatus` from `src/core/models.py`. -/
inductive ActionStatus where
  | pending
  | approved
  | executing
  | success
  | failed
  | rejected
deriving DecidableEq, Repr

/-- `Event` from `src/core/models.py`.  `raw_data` values are opaque and
play no role in the embedded code paths, so they are kept as strings. -/
structure Event where
  id : String
  source : EventSource
  severity : EventSeverity
  title : String
  description : String
  labels : List (String × String) := []
  raw_data : List (String × String) := []
  timestamp : Nat := 0
deriving DecidableEq, Repr

/-- `AIAnalysis` from `src/core/models.py`.

Note: the pydantic model declares exactly these fields; in particular it
declares **no** `runbook_id` field.  The analyzer passes `runbook_id=...`
to the constructor, but pydantic v2's default `extra="ignore"` silently
drops unknown keyword arguments, so no instance ever carries such an
attribute, and every access to `analysis.runbook_id` raises
`AttributeError` at runtime. -/
structure AIAnalysis where
  event_id : String
  summary : String
  root_cause : Option String := none
  suggested_actions : List ActionType
  confidence : ℚ
  reasoning : String
  requires_approval : Bool := false
  timestamp : Nat := 0
deriving DecidableEq, Repr

/-- `RemediationAction` from `src/core/models.py`. -/
structure RemediationAction where
  id : String
  event_id : String
  action_type : ActionType
  parameters : List (String × String) := []
  status : ActionStatus := .pending
  confidence : ℚ
  result : Option (List (String × String)) := none
  error : Option String := none
  created_at : Nat := 0
  executed_at : Option Nat := none
deriving DecidableEq, Repr

/-! ## Python-level helpers -/

/-- An uncaught Python exception. -/
inductive PyError where
  | attributeError (msg : String)
  | valueError (msg : String)
deriving DecidableEq, Repr

/-- `d.get(k)` on a string-keyed Python dict modelled as an assoc list. -/
def dictGet {β : Type} : List (String × β) → String → Option β
  | [], _ => none
  | p :: rest, k => if p.1 = k then some p.2 else dictGet rest k

/-- `d[k] = v` on a string-keyed Python dict: overwrite the existing
binding in place, else append (Python dicts keep insertion order). -/
def dictSet {β : Type} : List (String × β) → String → β → List (String × β)
  | [], k, v => [(k, v)]
  | p :: rest, k, v =>
    if p.1 = k then (k, v) :: rest else p :: dictSet rest k v

/-- `del d[k]` on a string-keyed Python dict. -/
def dictDel {β : Type} (d : List (String × β)) (k : String) :
    List (String × β) :=
  d.filter (fun p => p.1 ≠ k)

/-- Python truthiness of an optional string (`None` and `""` are falsy),
used for `if request.slack_message_ts:`-style guards. -/
def pyTruthyStr : Option String → Bool
  | none => false
  | some s => s ≠ ""

/-! ## Approval workflow (`src/workflows/approval.py`) -/

/-- `ApprovalStatus` from `src/workflows/approval.py`. -/
inductive ApprovalStatus where
  | pending
  | approved
  | rejected
  | expired
  | auto_approved
deriving DecidableEq, Repr

/-- The `.value` string of an `ApprovalStatus` member. -/
def ApprovalStatus.value : ApprovalStatus → String
  | .pending => "pending"
  | .approved => "approved"
  | .rejected => "rejected"
  | .expired => "expired"
  | .auto_approved => "auto_approved"

/-- `ApprovalConfig` from `src/workflows/approval.py`, with the dataclass
field defaults. -/
structure ApprovalConfig where
  timeout_minutes : Nat := 30
  auto_approve_severity : String := "info"
  always_require_approval : List ActionType :=
    [.k8s_rollback, .ssh_command]
  auto_approvable : List ActionType :=
    [.k8s_restart_pod, .k8s_scale_deployment, .no_action]
  auto_approve_confidence : ℚ := mkRat 85 100  -- 0.85
  slack_enabled : Bool := true
  slack_channel : String := "#noc-alerts"
  email_enabled : Bool := false
  email_recipients : List String := []
deriving DecidableEq, Repr

/-- The configuration built by `get_approval_service()`: only the timeout
and Slack settings are read from the environment; the policy sets and the
confidence threshold always keep their dataclass defaults. -/
def programApprovalConfig (timeout : Nat) (slackEnabled : Bool)
    (slackChannel : String) : ApprovalConfig :=
  { timeout_minutes := timeout
    slack_enabled := slackEnabled
    slack_channel := slackChannel }

/-- `ApprovalRequest` from `src/workflows/approval.py`. -/
structure ApprovalRequest where
  id : String
  action : RemediationAction
  event : Event
  analysis : AIAnalysis
  status : ApprovalStatus := .pending
  created_at : Nat := 0
  expires_at : Option Nat := none
  approved_by : Option String := none
  rejected_by : Option String := none
  rejection_reason : Option String := none
  slack_message_ts : Option String := none
  metadata : List (String × String) := []
deriving DecidableEq, Repr

/-- `ApprovalResponse` from `src/workflows/approval.py`. -/
structure ApprovalResponse where
  request_id : String
  approved : Bool
  responder : String
  reason : Option String := none
  timestamp : Nat := 0
deriving DecidableEq, Repr

/-- `ApprovalService._check_auto_approve` (`src/workflows/approval.py`,
lines 199–242), translated clause by clause in the source's order.

The final two checks of the Python function read `analysis.runbook_id`;
since `AIAnalysis` (see its docstring) has no such field, reaching that
line raises `AttributeError`, modelled as `Except.error`.  All earlier
checks return before that line. -/
def check_auto_approve (config : ApprovalConfig) (action : RemediationAction)
    (event : Event) (analysis : AIAnalysis) :
    Except PyError (Bool × String) :=
  -- Never auto-approve certain action types
  if action.action_type ∈ config.always_require_approval then
    .ok (false, s!"Action type {action.action_type.value} always requires approval")
  -- Check if analysis says approval is required
  else if analysis.requires_approval then
    .ok (false, "AI analysis recommends manual approval")
  -- Check if action type is auto-approvable
  else if action.action_type ∉ config.auto_approvable then
    .ok (false, s!"Action type {action.action_type.value} is not auto-approvable")
  -- Check confidence threshold
  else if analysis.confidence < config.auto_approve_confidence then
    .ok (false, s!"Confidence {toString analysis.confidence} below threshold {toString config.auto_approve_confidence}")
  -- Check severity
  else if event.severity.value = "critical" then
    .ok (false, "Critical severity requires manual approval")
  -- Auto-approve info severity
  else if event.severity.value = config.auto_approve_severity then
    .ok (true, s!"Auto-approved due to {event.severity.value} severity")
  else
    -- `if analysis.runbook_id:` — AIAnalysis has no runbook_id attribute
    .error (.attributeError "AIAnalysis object has no attribute runbook_id")

/-- An observable side effect of a ledger operation: a notifier call or
the invocation of one registered callback (callbacks and the notifier are
opaque awaitables; every call site wraps them in `try/except` and logs,
so their own failures change no ledger state). -/
inductive Effect where
  /-- `self._notifier.send_approval_request(request)` -/
  | notifySendApprovalRequest (request : ApprovalRequest)
  /-- `self._notifier.update_approval_status(request, approved, responder, reason)` -/
  | notifyUpdateStatus (request : ApprovalRequest) (approved : Bool)
      (responder : String) (reason : Option String)
  /-- invocation of the `i`-th registered approval callback on `request` -/
  | approvalCallback (i : Nat) (request : ApprovalRequest)
  /-- invocation of the `i`-th registered rejection callback on `request` -/
  | rejectionCallback (i : Nat) (request : ApprovalRequest)
deriving DecidableEq, Repr

/-- The mutable state of `ApprovalService` (`src/workflows/approval.py`).
`has_notifier` models `self._notifier is not None`; the callback lists are
opaque closures, so only their count is state (invocations are recorded
as `Effect`s). -/
structure ApprovalService where
  config : ApprovalConfig := {}
  has_notifier : Bool := false
  pending_requests : List (String × ApprovalRequest) := []
  approval_callbacks : Nat := 0
  rejection_callbacks : Nat := 0
deriving DecidableEq, Repr

/-- `ApprovalService.request_approval` (`src/workflows/approval.py`,
lines 143–197).

`newId` stands for the fresh `str(uuid4())`, `now` for `datetime.utcnow()`
(`created_at` and the `expires_at` base are the same call frame's clock),
and `notifyResult` for what `self._notifier.send_approval_request` would
do if called: return a message timestamp or raise (the `except` clause
only logs).  The stored request and the returned request are the same
Python object, so the `slack_message_ts` written after storing is visible
in both; the model applies it before storing. -/
def ApprovalService.request_approval (svc : ApprovalService)
    (newId : String) (now : Nat)
    (notifyResult : Except PyError (Option String))
    (action : RemediationAction) (event : Event) (analysis : AIAnalysis) :
    Except PyError (ApprovalRequest × ApprovalService × List Effect) := do
  let (auto_approve, reason) ← check_auto_approve svc.config action event analysis
  let request : ApprovalRequest :=
    { id := newId
      action := action
      event := event
      analysis := analysis
      status := if auto_approve then .auto_approved else .pending
      created_at := now
      expires_at := some (now + svc.config.timeout_minutes) }
  if auto_approve then
    let request := { request with
      approved_by := some "system"
      metadata := dictSet request.metadata "auto_approve_reason" reason }
    -- Trigger approval callbacks (each wrapped in try/except)
    return (request, svc,
      (List.range svc.approval_callbacks).map (fun i => .approvalCallback i request))
  else
    -- Store pending request, then send notification (failure caught)
    let effects := if svc.has_notifier then [Effect.notifySendApprovalRequest request] else []
    let request :=
      if svc.has_notifier then
        match notifyResult with
        | .ok message_ts => { request with slack_message_ts := message_ts }
        | .error _ => request
      else request
    let svc := { svc with
      pending_requests := dictSet svc.pending_requests request.id request }
    return (request, svc, effects)

/-- `ApprovalService.approve` (`src/workflows/approval.py`, lines 244–289).
Raises before any mutation on an unknown or non-pending request, so the
service state is returned unchanged alongside the error. -/
def ApprovalService.approve (svc : ApprovalService)
    (request_id : String) (approver : String) (reason : Option String)
    (now : Nat) :
    Except PyError (ApprovalResponse × List Effect) × ApprovalService :=
  match dictGet svc.pending_requests request_id with
  | none =>
    (.error (.valueError s!"Approval request {request_id} not found"), svc)
  | some request =>
    if request.status ≠ ApprovalStatus.pending then
      (.error (.valueError
        s!"Request {request_id} is not pending (status: {request.status.value})"), svc)
    else
      let request := { request with status := .approved, approved_by := some approver }
      let svc' := { svc with pending_requests := dictDel svc.pending_requests request_id }
      let effects :=
        (if svc.has_notifier ∧ pyTruthyStr request.slack_message_ts then
          [Effect.notifyUpdateStatus request true approver none]
        else [])
        ++ (List.range svc.approval_callbacks).map (fun i => .approvalCallback i request)
      (.ok ({ request_id := request_id, approved := true, responder := approver,
              reason := reason, timestamp := now }, effects), svc')

/-- `ApprovalService.reject` (`src/workflows/approval.py`, lines 291–338),
symmetric to `approve` with the rejection callbacks. -/
def ApprovalService.reject (svc : ApprovalService)
    (request_id : String) (rejector : String) (reason : Option String)
    (now : Nat) :
    Except PyError (ApprovalResponse × List Effect) × ApprovalService :=
  match dictGet svc.pending_requests request_id with
  | none =>
    (.error (.valueError s!"Approval request {request_id} not found"), svc)
  | some request =>
    if request.status ≠ ApprovalStatus.pending then
      (.error (.valueError
        s!"Request {request_id} is not pending (status: {request.status.value})"), svc)
    else
      let request := { request with
        status := .rejected, rejected_by := some rejector, rejection_reason := reason }
      let svc' := { svc with pending_requests := dictDel svc.pending_requests request_id }
      let effects :=
        (if svc.has_notifier ∧ pyTruthyStr request.slack_message_ts then
          [Effect.notifyUpdateStatus request false rejector reason]
        else [])
        ++ (List.range svc.rejection_callbacks).map (fun i => .rejectionCallback i request)
      (.ok ({ request_id := request_id, approved := false, responder := rejector,
              reason := reason, timestamp := now }, effects), svc')

/-- `ApprovalService.get_pending_requests` (`src/workflows/approval.py`). -/
def ApprovalService.get_pending_requests (svc : ApprovalService) :
    List ApprovalRequest :=
  svc.pending_requests.map (·.2)

/-- `ApprovalService.get_request` (`src/workflows/approval.py`,
lines 344–346): `self._pending_requests.get(request_id)`. -/
def ApprovalService.get_request (svc : ApprovalService)
    (request_id : String) : Option ApprovalRequest :=
  dictGet svc.pending_requests request_id

/-- The loop body of `_expire_old_requests` for one `(request_id,
request)` item of the snapshot: if the deadline has passed, set the
status to `EXPIRED`, delete the entry, record the best-effort
notification attempt (the `except` clause only logs, so a notifier
failure affects nothing and later items are still processed), and add
the request to the `expired` accumulator. -/
def expireStep (now : Nat)
    (acc : ApprovalService × List Effect × List (String × ApprovalRequest))
    (kv : String × ApprovalRequest) :
    ApprovalService × List Effect × List (String × ApprovalRequest) :=
  let (s, effs, expired) := acc
  let (request_id, request) := kv
  match request.expires_at with
  | none => acc
  | some deadline =>
    if now > deadline then
      let request := { request with status := ApprovalStatus.expired }
      let s := { s with pending_requests := dictDel s.pending_requests request_id }
      let effs := effs ++
        (if s.has_notifier ∧ pyTruthyStr request.slack_message_ts then
          [Effect.notifyUpdateStatus request false "system" (some "Request expired")]
        else [])
      (s, effs, expired ++ [(request_id, request)])
    else acc

/-- `ApprovalService._expire_old_requests` (`src/workflows/approval.py`,
lines 359–386): one Expiry-Sweeper tick.  It iterates over a snapshot of
the pending dict, applying `expireStep` to each item.  The third
component mirrors the code's `expired` accumulator, paired with the
mutated request the loop's logging refers to.  No callbacks of any kind
are invoked. -/
def ApprovalService.expire_old_requests (svc : ApprovalService) (now : Nat) :
    ApprovalService × List Effect × List (String × ApprovalRequest) :=
  svc.pending_requests.foldl (expireStep now) (svc, [], [])

/-! ## Event processor (`src/core/event_processor.py`) -/

/-- What a registered action handler does when awaited: return a result
mapping or raise.  Handlers are opaque callables registered per
action-type string (`self.action_handlers[action_type.value]`); the code
under verification never inspects them beyond calling them once. -/
def HandlerOutcome : Type := Except String (List (String × String))

instance exceptDecEq {ε α : Type} [DecidableEq ε] [DecidableEq α] :
    DecidableEq (Except ε α) := fun a b =>
  match a, b with
  | .ok x, .ok y =>
    if h : x = y then .isTrue (by rw [h]) else .isFalse (fun hc => h (Except.ok.inj hc))
  | .ok _, .error _ => .isFalse (fun hc => Except.noConfusion hc)
  | .error _, .ok _ => .isFalse (fun hc => Except.noConfusion hc)
  | .error x, .error y =>
    if h : x = y then .isTrue (by rw [h]) else .isFalse (fun hc => h (Except.error.inj hc))

instance : DecidableEq HandlerOutcome :=
  exceptDecEq

/-- The mutable state of `EventProcessor` (`src/core/event_processor.py`).
Fields `events`, `actions`, `analyses` model `_events`, `_actions`,
`_analyses`; `approval_service_attached` models
`self._approval_service is not None` (set by `set_approval_service`). -/
structure EventProcessor where
  action_handlers : List (String × HandlerOutcome) := []
  events : List (String × Event) := []
  actions : List (String × RemediationAction) := []
  analyses : List (String × AIAnalysis) := []
  approval_service_attached : Bool := false
deriving DecidableEq

/-- `EventProcessor._execute_action` (`src/core/event_processor.py`,
lines 218–241).  With a registered handler: `EXECUTING` + execution
timestamp, then `SUCCESS` with the handler's result or `FAILED` with the
captured error.  With no handler: `SUCCESS` with a synthetic result for
`no_action`/`escalate`, otherwise only a log and no mutation. -/
def EventProcessor.execute_action (p : EventProcessor) (now : Nat)
    (action : RemediationAction) : RemediationAction :=
  match dictGet p.action_handlers action.action_type.value with
  | some handler =>
    let action := { action with status := ActionStatus.executing, executed_at := some now }
    match handler with
    | .ok result => { action with status := ActionStatus.success, result := some result }
    | .error e => { action with status := ActionStatus.failed, error := some e }
  | none =>
    -- Mark as success for no_action and escalate types
    if action.action_type ∈ [ActionType.no_action, ActionType.escalate] then
      { action with
        status := ActionStatus.success
        result := some [("message", s!"Action type {action.action_type.value} logged")] }
    else
      action

/-- `EventProcessor.approve_action` (`src/core/event_processor.py`,
lines 141–148): legacy direct approval.  Guards only on the action's
existence and `PENDING` status; `self._approval_service` is never
consulted. -/
def EventProcessor.approve_action (p : EventProcessor) (action_id : String)
    (now : Nat) : Bool × EventProcessor :=
  match dictGet p.actions action_id with
  | some action =>
    if action.status = ActionStatus.pending then
      let action := { action with status := ActionStatus.approved }
      let action := p.execute_action now action
      (true, { p with actions := dictSet p.actions action_id action })
    else (false, p)
  | none => (false, p)

/-- `EventProcessor.reject_action` (`src/core/event_processor.py`,
lines 150–156): legacy direct rejection, same guard as `approve_action`. -/
def EventProcessor.reject_action (p : EventProcessor) (action_id : String) :
    Bool × EventProcessor :=
  match dictGet p.actions action_id with
  | some action =>
    if action.status = ActionStatus.pending then
      let action := { action with status := ActionStatus.rejected }
      (true, { p with actions := dictSet p.actions action_id action })
    else (false, p)
  | none => (false, p)

/-- `EventProcessor._on_action_approved` (`src/core/event_processor.py`,
lines 51–56): the approval callback registered with the ledger.  If the
request's action is in the store, set its status to `APPROVED`
**unconditionally** (no check of the current status) and execute it. -/
def EventProcessor.on_action_approved (p : EventProcessor) (now : Nat)
    (request : ApprovalRequest) : EventProcessor :=
  match dictGet p.actions request.action.id with
  | some action =>
    let action := { action with status := ActionStatus.approved }
    let action := p.execute_action now action
    { p with actions := dictSet p.actions request.action.id action }
  | none => p

/-- `EventProcessor._on_action_rejected` (`src/core/event_processor.py`,
lines 58–62): the rejection callback registered with the ledger; sets the
status to `REJECTED` unconditionally if the action is stored. -/
def EventProcessor.on_action_rejected (p : EventProcessor)
    (request : ApprovalRequest) : EventProcessor :=
  match dictGet p.actions request.action.id with
  | some action =>
    let action := { action with status := ActionStatus.rejected }
    { p with actions := dictSet p.actions request.action.id action }
  | none => p

/-! ## The wired system

`set_approval_service` registers `_on_action_approved` /
`_on_action_rejected` as the ledger's (only) callbacks.  `System` models a
processor wired to a ledger this way, and interprets each recorded
callback `Effect` by running the corresponding processor callback. -/

/-- An `EventProcessor` with its attached `ApprovalService`, as wired by
`set_approval_service` (the processor's two callbacks are registered on
the ledger). -/
structure System where
  proc : EventProcessor
  svc : ApprovalService
deriving DecidableEq

/-- Run the processor callbacks demanded by a ledger operation's recorded
effects, in order. -/
def EventProcessor.run_callbacks (p : EventProcessor) (now : Nat)
    (effects : List Effect) : EventProcessor :=
  effects.foldl
    (fun p eff =>
      match eff with
      | .approvalCallback _ request => p.on_action_approved now request
      | .rejectionCallback _ request => p.on_action_rejected request
      | _ => p)
    p

/-- One externally triggered operation on the wired system. -/
inductive SysOp where
  /-- `ApprovalService.approve` via the API, callbacks included -/
  | ledgerApprove (request_id approver : String) (reason : Option String)
  /-- `ApprovalService.reject` via the API, callbacks included -/
  | ledgerReject (request_id rejector : String) (reason : Option String)
  /-- one `_expire_old_requests` sweeper tick (no callbacks in the code) -/
  | expireTick
  /-- legacy `EventProcessor.approve_action` -/
  | legacyApprove (action_id : String)
  /-- legacy `EventProcessor.reject_action` -/
  | legacyReject (action_id : String)
deriving DecidableEq

/-- Execute one operation on the wired system. -/
def System.run (sys : System) (op : SysOp) (now : Nat) : System :=
  match op with
  | .ledgerApprove request_id approver reason =>
    match sys.svc.approve request_id approver reason now with
    | (.error _, svc) => { sys with svc := svc }
    | (.ok (_, effects), svc) =>
      { proc := sys.proc.run_callbacks now effects, svc := svc }
  | .ledgerReject request_id rejector reason =>
    match sys.svc.reject request_id rejector reason now with
    | (.error _, svc) => { sys with svc := svc }
    | (.ok (_, effects), svc) =>
      { proc := sys.proc.run_callbacks now effects, svc := svc }
  | .expireTick =>
    { sys with svc := (sys.svc.expire_old_requests now).1 }
  | .legacyApprove action_id =>
    { sys with proc := (sys.proc.approve_action action_id now).2 }
  | .legacyReject action_id =>
    { sys with proc := (sys.proc.reject_action action_id).2 }

/-! ## Concrete fixtures for witnesses and counterexamples -/

/-- A concrete alert event (the spec's CrashLoopBackOff scenario shape). -/
def sampleEvent (sev : EventSeverity) : Event :=
  { id := "ev1"
    source := .alertmanager
    severity := sev
    title := "Pod CrashLoopBackOff"
    description := "pod restarting repeatedly" }

/-- A concrete analysis suggesting a pod restart. -/
def sampleAnalysis (confidence : ℚ) (requires_approval : Bool) : AIAnalysis :=
  { event_id := "ev1"
    summary := "crashloop detected"
    suggested_actions := [.k8s_restart_pod]
    confidence := confidence
    reasoning := "matched known pattern"
    requires_approval := requires_approval }

/-- A concrete remediation action. -/
def sampleAction (t : ActionType) (st : ActionStatus) : RemediationAction :=
  { id := "a1"
    event_id := "ev1"
    action_type := t
    status := st
    confidence := mkRat 9 10 }

/-- A concrete pending approval request for `sampleAction`. -/
def sampleRequest (st : ApprovalStatus) : ApprovalRequest :=
  { id := "r1"
    action := sampleAction .k8s_restart_pod .pending
    event := sampleEvent .warning
    analysis := sampleAnalysis (mkRat 9 10) false
    status := st
    created_at := 0
    expires_at := some 30
    slack_message_ts := some "ts-1" }

/-- A processor with an approval ledger attached and one stored pending
action, used to refute C8 as stated. -/
def procWithLedger : EventProcessor :=
  { actions := [("a1", sampleAction .escalate .pending)]
    approval_service_attached := true }

/-- Relation between processor states across one operation: every stored
action either kept its exact previous stored value, or carries a
non-`PENDING` status.  Every write performed by the pipeline and the
ledger callbacks stores a non-`PENDING` value, so each operation relates
the before and after states. -/
def WritesNonPending (p q : EventProcessor) : Prop :=
  ∀ id a', dictGet q.actions id = some a' →
    dictGet p.actions id = some a' ∨ a'.status ≠ ActionStatus.pending

/-- A wired system in which the ledger still holds a pending request for
an action the legacy path has already resolved. -/
def sysC9 : System :=
  { proc := { actions := [("a1", sampleAction .k8s_restart_pod .pending)] }
    svc := { pending_requests := [("r1", sampleRequest .pending)]
             approval_callbacks := 1
             rejection_callbacks := 1 } }

/-- A wired system with a terminal (`SUCCESS`) action and a stale pending
ledger request for it, used to witness `no_reenter_pending`. -/
def sysW : System :=
  { proc := { actions := [("a1", sampleAction .escalate .success)] }
    svc := { pending_requests := [("r1", sampleRequest .pending)]
             approval_callbacks := 1
             rejection_callbacks := 1 } }

/-- The value action `a1` of `sysW` holds after the stale ledger request
is approved (re-approved, then executed with no handler: `escalate` gets
the synthetic `SUCCESS`). -/
def sysWFinalAction : RemediationAction :=
  { sampleAction .escalate .success with
    status := ActionStatus.success
    result := some [("message", "Action type escalate logged")] }

/-- A ledger holding exactly one pending request `r1`. -/
def svcC3 : ApprovalService :=
  { pending_requests := [("r1", sampleRequest .pending)]
    approval_callbacks := 1
    rejection_callbacks := 1 }

/-- A ledger with a notifier and two registered approval callbacks. -/
def svcC5 : ApprovalService :=
  { has_notifier := true
    approval_callbacks := 2
    rejection_callbacks := 1 }

/-- The only effect kind the expiry sweep can emit. -/
def notifyOnlyEffect : Effect → Bool
  | .notifyUpdateStatus _ _ _ _ => true
  | _ => false

/-- A ledger with a notifier, one expired pending request and one
registered callback of each kind. -/
def svcC2 : ApprovalService :=
  { has_notifier := true
    pending_requests := [("r1", sampleRequest .pending)]
    approval_callbacks := 1
    rejection_callbacks := 1 }

/-- The ledger's well-formedness invariant: everything in the pending map
has status `PENDING`. -/
def LedgerWF (svc : ApprovalService) : Prop :=
  ∀ kv ∈ svc.pending_requests,
    (kv : String × ApprovalRequest).2.status = ApprovalStatus.pending

/-- Witness for C10: the invariant and all its consequences hold on the
concrete one-request ledger `svcW10`. -/
def svcW10 : ApprovalService :=
  { has_notifier := true
    pending_requests := [("r1", sampleRequest .pending)]
    approval_callbacks := 2
    rejection_callbacks := 2 }

/-! ## Dictionary lemmas -/

theorem dictGet_dictSet {β : Type} (d : List (String × β)) (k k' : String) (v : β) :
    dictGet (dictSet d k v) k' = if k' = k then some v else dictGet d k' := by
  induction d with
  | nil =>
    by_cases h : k' = k
    · simp [dictSet, dictGet, h]
    · simp only [dictSet, dictGet]
      rw [if_neg (fun hh => h hh.symm), if_neg h]
  | cons p rest ih =>
    by_cases hpk : p.1 = k
    · by_cases h : k' = k
      · subst h
        simp [dictSet, dictGet, hpk]
      · have h2 : ¬ p.1 = k' := fun hh => h (hh.symm.trans hpk)
        have h3 : ¬ k = k' := fun hh => h hh.symm
        simp [dictSet, dictGet, hpk, h, h2, h3]
    · by_cases hp : p.1 = k'
      · have h : ¬ k' = k := fun hh => hpk (hp.trans hh)
        simp [dictSet, dictGet, hpk, hp, h]
      · by_cases h : k' = k
        · subst h
          simp [dictSet, dictGet, hpk, hp, ih]
        · simp [dictSet, dictGet, hpk, hp, h, ih]

theorem dictGet_dictDel {β : Type} (d : List (String × β)) (k k' : String) :
    dictGet (dictDel d k) k' = if k' = k then none else dictGet d k' := by
  induction d with
  | nil =>
    simp only [dictDel, List.filter_nil, dictGet]
    split <;> rfl
  | cons p rest ih =>
    simp only [dictDel, ne_eq, List.filter_cons, decide_not] at ih ⊢
    by_cases hpk : p.1 = k
    · by_cases h : k' = k
      · subst h
        simp_all [dictGet]
      · have h2 : ¬ p.1 = k' := fun hh => h (hh.symm.trans hpk)
        simp_all [dictGet]
    · by_cases hp : p.1 = k'
      · have h : ¬ k' = k := fun hh => hpk (hp.trans hh)
        simp_all [dictGet]
      · by_cases h : k' = k
        · subst h
          simp_all [dictGet]
        · simp_all [dictGet]

theorem dictGet_mem {β : Type} {d : List (String × β)} {k : String} {v : β}
    (h : dictGet d k = some v) : (k, v) ∈ d := by
  induction d with
  | nil => simp [dictGet] at h
  | cons p rest ih =>
    rw [dictGet] at h
    by_cases hp : p.1 = k
    · rw [if_pos hp] at h
      have hpv : p = (k, v) := by
        cases p
        simp only [Option.some.injEq] at h
        simp_all
      rw [← hpv]
      exact List.mem_cons_self _ _
    · rw [if_neg hp] at h
      exact List.mem_cons_of_mem _ (ih h)

theorem mem_dictSet {β : Type} {d : List (String × β)} {k : String} {v : β}
    {kv : String × β} (h : kv ∈ dictSet d k v) : kv = (k, v) ∨ kv ∈ d := by
  induction d with
  | nil => simp [dictSet] at h; simp [h]
  | cons p rest ih =>
    rw [dictSet] at h
    by_cases hp : p.1 = k
    · rw [if_pos hp] at h
      rcases List.mem_cons.mp h with h | h
      · exact .inl h
      · exact .inr (List.mem_cons_of_mem _ h)
    · rw [if_neg hp] at h
      rcases List.mem_cons.mp h with h | h
      · exact .inr (by rw [h]; exact List.mem_cons_self _ _)
      · rcases ih h with h | h
        · exact .inl h
        · exact .inr (List.mem_cons_of_mem _ h)

theorem mem_dictDel {β : Type} {d : List (String × β)} {k : String}
    {kv : String × β} (h : kv ∈ dictDel d k) : kv ∈ d :=
  List.mem_of_mem_filter h

/-! ## Claims -/

/-- C1: for every action whose `action_type` is in the configured
`always_require_approval` set, `_check_auto_approve` returns
`auto_approve = false` (with the rule-1 reason), for all analyses and
events — the veto is the first check, so no later permissive rule can
override it. -/
theorem check_auto_approve_always_require_veto
    (config : ApprovalConfig) (action : RemediationAction)
    (event : Event) (analysis : AIAnalysis)
    (h : action.action_type ∈ config.always_require_approval) :
    check_auto_approve config action event analysis =
      .ok (false, s!"Action type {action.action_type.value} always requires approval") := by
  simp [check_auto_approve, h]

/-- Witness for C1: a `k8s_rollback` action with maximal confidence, info
severity and an unflagged analysis is still vetoed under the default
configuration. -/
theorem check_auto_approve_always_require_veto_witness :
    ActionType.k8s_rollback ∈ ({} : ApprovalConfig).always_require_approval ∧
    check_auto_approve {} (sampleAction .k8s_rollback .pending)
        (sampleEvent .info) (sampleAnalysis (mkRat 99 100) false) =
      .ok (false, s!"Action type {(sampleAction .k8s_rollback .pending).action_type.value} always requires approval") :=
  ⟨by decide,
    check_auto_approve_always_require_veto {} (sampleAction .k8s_rollback .pending)
      (sampleEvent .info) (sampleAnalysis (mkRat 99 100) false) (by decide)⟩

/-- C6: under the configuration the program actually constructs
(`get_approval_service` fixes the policy sets, threshold and auto-approve
severity at their dataclass defaults, whatever the timeout and Slack
settings), every event whose severity value equals the configured
auto-approve severity, with an auto-approvable action type, confidence at
or above the threshold and an unflagged analysis, is auto-approved. -/
theorem check_auto_approve_severity_auto
    (t : Nat) (sb : Bool) (sc : String)
    (action : RemediationAction) (event : Event) (analysis : AIAnalysis)
    (hsev : event.severity.value = (programApprovalConfig t sb sc).auto_approve_severity)
    (hmem : action.action_type ∈ (programApprovalConfig t sb sc).auto_approvable)
    (hconf : (programApprovalConfig t sb sc).auto_approve_confidence ≤ analysis.confidence)
    (hflag : analysis.requires_approval = false) :
    check_auto_approve (programApprovalConfig t sb sc) action event analysis =
      .ok (true, s!"Auto-approved due to {event.severity.value} severity") := by
  have hdefsev : (programApprovalConfig t sb sc).auto_approve_severity = "info" := rfl
  have hdefreq : (programApprovalConfig t sb sc).always_require_approval =
      [ActionType.k8s_rollback, ActionType.ssh_command] := rfl
  have hdefauto : (programApprovalConfig t sb sc).auto_approvable =
      [ActionType.k8s_restart_pod, ActionType.k8s_scale_deployment, ActionType.no_action] := rfl
  rw [hdefsev] at hsev
  rw [hdefauto] at hmem
  have hsev' : event.severity = EventSeverity.info := by
    cases hs : event.severity
    · rw [hs] at hsev; exact absurd hsev (by decide)
    · rw [hs] at hsev; exact absurd hsev (by decide)
    · rfl
  have hmem' : action.action_type = ActionType.k8s_restart_pod ∨
      action.action_type = ActionType.k8s_scale_deployment ∨
      action.action_type = ActionType.no_action := by
    simpa using hmem
  have hveto : action.action_type ∉ (programApprovalConfig t sb sc).always_require_approval := by
    rw [hdefreq]
    rcases hmem' with h | h | h <;> rw [h] <;> decide
  have hnotlt : ¬ analysis.confidence < (programApprovalConfig t sb sc).auto_approve_confidence :=
    not_lt.mpr hconf
  have hcrit : event.severity.value ≠ "critical" := by
    rw [hsev']; decide
  simp [check_auto_approve, hveto, hflag, hdefauto, hmem, hnotlt, hcrit, hdefsev, hsev]

/-- Witness for C6: an info-severity event with a `k8s_restart_pod`
action at confidence 0.9 under the program's configuration is
auto-approved. -/
theorem check_auto_approve_severity_auto_witness :
    (sampleEvent .info).severity.value = (programApprovalConfig 30 true "#noc-alerts").auto_approve_severity ∧
    check_auto_approve (programApprovalConfig 30 true "#noc-alerts")
        (sampleAction .k8s_restart_pod .pending)
        (sampleEvent .info) (sampleAnalysis (mkRat 9 10) false) =
      .ok (true, s!"Auto-approved due to {(sampleEvent .info).severity.value} severity") :=
  ⟨by decide,
    check_auto_approve_severity_auto 30 true "#noc-alerts"
      (sampleAction .k8s_restart_pod .pending) (sampleEvent .info)
      (sampleAnalysis (mkRat 9 10) false) (by decide) (by decide) (by decide) (by decide)⟩

/-- C4 (code bug): at the spec's warning-severity CrashLoopBackOff
scenario — an auto-approvable `k8s_restart_pod`, confidence 0.9,
`requires_approval = false`, severity `warning` — the evaluator falls
through rules 1–6 and then reads `analysis.runbook_id`.  `AIAnalysis`
(`src/core/models.py`) declares no `runbook_id` field (pydantic v2
silently drops the analyzer's `runbook_id=` keyword), so the code raises
`AttributeError` instead of auto-approving via rule 7; the action is not
executed. -/
theorem check_auto_approve_runbook_scenario_attribute_error :
    check_auto_approve {} (sampleAction .k8s_restart_pod .pending)
        (sampleEvent .warning) (sampleAnalysis (mkRat 9 10) false) =
      .error (.attributeError "AIAnalysis object has no attribute runbook_id") := by
  decide

/-- C7: when `_execute_action` runs an action whose type has no
registered handler, an `escalate` or `no_action` action becomes `SUCCESS`
with the synthetic informational result, and an action of any other type
is returned entirely unchanged (status, result, error and `executed_at`
untouched). -/
theorem execute_action_no_handler
    (p : EventProcessor) (now : Nat) (action : RemediationAction)
    (h : dictGet p.action_handlers action.action_type.value = none) :
    ((action.action_type = ActionType.escalate ∨ action.action_type = ActionType.no_action) →
      p.execute_action now action =
        { action with
          status := ActionStatus.success
          result := some [("message", s!"Action type {action.action_type.value} logged")] }) ∧
    (action.action_type ≠ ActionType.escalate → action.action_type ≠ ActionType.no_action →
      p.execute_action now action = action) := by
  constructor
  · intro ht
    rcases ht with ht | ht <;> rw [ht] at h <;>
      simp [EventProcessor.execute_action, h, ht]
  · intro h1 h2
    simp [EventProcessor.execute_action, h, h1, h2]

/-- Witness for C7: with no handlers registered, an `escalate` action is
marked `SUCCESS` with the synthetic result, and an `ssh_command` action is
returned unchanged. -/
theorem execute_action_no_handler_witness :
    dictGet ({} : EventProcessor).action_handlers (sampleAction .escalate .approved).action_type.value = none ∧
    ({} : EventProcessor).execute_action 5 (sampleAction .escalate .approved) =
      { sampleAction .escalate .approved with
        status := ActionStatus.success
        result := some [("message", s!"Action type {(sampleAction .escalate .approved).action_type.value} logged")] } ∧
    ({} : EventProcessor).execute_action 5 (sampleAction .ssh_command .approved) =
      sampleAction .ssh_command .approved :=
  ⟨rfl,
    (execute_action_no_handler {} 5 (sampleAction .escalate .approved) rfl).1 (Or.inl rfl),
    (execute_action_no_handler {} 5 (sampleAction .ssh_command .approved) rfl).2
      (by decide) (by decide)⟩

/-- C8 counterexample: `approve_action` never consults
`_approval_service`.  With a ledger attached and a stored `PENDING`
action, the legacy call still returns `True`, resolves the action and
triggers execution (here to `SUCCESS`) — contradicting the claim that the
legacy entry points "only function when no ledger is attached" and "do
not resolve actions" when one is. -/
theorem legacy_approve_with_ledger_counterexample :
    procWithLedger.approval_service_attached = true ∧
    (procWithLedger.approve_action "a1" 7).1 = true ∧
    (dictGet (procWithLedger.approve_action "a1" 7).2.actions "a1").map (·.status) =
      some ActionStatus.success := by
  decide

/-- C8 (amended): the legacy entry points `approve_action` /
`reject_action` bypass the ledger but consult only the action's status,
not whether a ledger is attached: their result is identical for any value
of the attached-service flag, they are no-ops returning `False` on an
unknown id or a non-`PENDING` action, and on a stored `PENDING` action
they return `True` and resolve it (approve also triggering execution) —
even when a ledger is attached. -/
theorem legacy_direct_decision_spec
    (p : EventProcessor) (action_id : String) (now : Nat) (b : Bool) :
    (({ p with approval_service_attached := b }).approve_action action_id now).1 =
        (p.approve_action action_id now).1 ∧
    (({ p with approval_service_attached := b }).approve_action action_id now).2.actions =
        (p.approve_action action_id now).2.actions ∧
    (({ p with approval_service_attached := b }).reject_action action_id).1 =
        (p.reject_action action_id).1 ∧
    (({ p with approval_service_attached := b }).reject_action action_id).2.actions =
        (p.reject_action action_id).2.actions ∧
    (dictGet p.actions action_id = none →
      p.approve_action action_id now = (false, p) ∧
      p.reject_action action_id = (false, p)) ∧
    (∀ a, dictGet p.actions action_id = some a → a.status ≠ ActionStatus.pending →
      p.approve_action action_id now = (false, p) ∧
      p.reject_action action_id = (false, p)) ∧
    (∀ a, dictGet p.actions action_id = some a → a.status = ActionStatus.pending →
      (p.approve_action action_id now).1 = true ∧
      (p.reject_action action_id).1 = true ∧
      dictGet (p.approve_action action_id now).2.actions action_id =
        some (p.execute_action now { a with status := ActionStatus.approved }) ∧
      dictGet (p.reject_action action_id).2.actions action_id =
        some { a with status := ActionStatus.rejected }) := by
  have hexec : ∀ a, ({ p with approval_service_attached := b }).execute_action now a =
      p.execute_action now a := by
    intro a
    simp [EventProcessor.execute_action]
  refine ⟨?_, ?_, ?_, ?_, ?_, ?_, ?_⟩
  · cases hd : dictGet p.actions action_id with
    | none => simp [EventProcessor.approve_action, hd]
    | some a =>
      by_cases hs : a.status = ActionStatus.pending <;>
        simp [EventProcessor.approve_action, hd, hs, hexec]
  · cases hd : dictGet p.actions action_id with
    | none => simp [EventProcessor.approve_action, hd]
    | some a =>
      by_cases hs : a.status = ActionStatus.pending <;>
        simp [EventProcessor.approve_action, hd, hs, hexec]
  · cases hd : dictGet p.actions action_id with
    | none => simp [EventProcessor.reject_action, hd]
    | some a =>
      by_cases hs : a.status = ActionStatus.pending <;>
        simp [EventProcessor.reject_action, hd, hs]
  · cases hd : dictGet p.actions action_id with
    | none => simp [EventProcessor.reject_action, hd]
    | some a =>
      by_cases hs : a.status = ActionStatus.pending <;>
        simp [EventProcessor.reject_action, hd, hs]
  · intro hd
    constructor <;> simp [EventProcessor.approve_action, EventProcessor.reject_action, hd]
  · intro a hd hs
    constructor <;>
      simp [EventProcessor.approve_action, EventProcessor.reject_action, hd, hs]
  · intro a hd hs
    refine ⟨?_, ?_, ?_, ?_⟩ <;>
      simp [EventProcessor.approve_action, EventProcessor.reject_action, hd, hs,
        dictGet_dictSet]

/-- Witness for C8: on `procWithLedger` (ledger attached, one pending
action) the amended description holds at the concrete input, in
particular the pending action resolves to its executed form. -/
theorem legacy_direct_decision_spec_witness :
    dictGet procWithLedger.actions "a1" = some (sampleAction .escalate .pending) ∧
    (sampleAction .escalate .pending).status = ActionStatus.pending ∧
    (procWithLedger.approve_action "a1" 7).1 = true ∧
    dictGet (procWithLedger.approve_action "a1" 7).2.actions "a1" =
      some (procWithLedger.execute_action 7
        { sampleAction .escalate .pending with status := ActionStatus.approved }) :=
  ⟨by decide, by decide,
    ((legacy_direct_decision_spec procWithLedger "a1" 7 true).2.2.2.2.2.2
      (sampleAction .escalate .pending) (by decide) (by decide)).1,
    ((legacy_direct_decision_spec procWithLedger "a1" 7 true).2.2.2.2.2.2
      (sampleAction .escalate .pending) (by decide) (by decide)).2.2.1⟩

/-! ## Status-monotonicity machinery (claim C9) -/

theorem writesNonPending_rfl (p : EventProcessor) : WritesNonPending p p :=
  fun _ _ h => .inl h

theorem writesNonPending_trans {p q r : EventProcessor}
    (h1 : WritesNonPending p q) (h2 : WritesNonPending q r) :
    WritesNonPending p r := fun id a' h =>
  match h2 id a' h with
  | .inl hq => h1 id a' hq
  | .inr hs => .inr hs

theorem writesNonPending_dictSet (p : EventProcessor) (k : String)
    (v : RemediationAction) (hv : v.status ≠ ActionStatus.pending)
    (q : EventProcessor) (hq : q.actions = dictSet p.actions k v) :
    WritesNonPending p q := by
  intro id a' h
  rw [hq, dictGet_dictSet] at h
  by_cases hik : id = k
  · rw [if_pos hik] at h
    exact .inr ((Option.some.inj h) ▸ hv)
  · rw [if_neg hik] at h
    exact .inl h

/-- `_execute_action` never outputs a `PENDING` status when its input
status is not `PENDING` (it writes `EXECUTING`/`SUCCESS`/`FAILED`, or
leaves the action unchanged). -/
theorem execute_action_nonpending (p : EventProcessor) (now : Nat)
    (a : RemediationAction) (ha : a.status ≠ ActionStatus.pending) :
    (p.execute_action now a).status ≠ ActionStatus.pending := by
  rw [EventProcessor.execute_action]
  cases hd : dictGet p.action_handlers a.action_type.value with
  | some handler => cases handler <;> simp
  | none =>
    by_cases hm : a.action_type ∈ [ActionType.no_action, ActionType.escalate] <;>
      simp [hm, ha]

theorem on_action_approved_writes (p : EventProcessor) (now : Nat)
    (request : ApprovalRequest) :
    WritesNonPending p (p.on_action_approved now request) := by
  rw [EventProcessor.on_action_approved]
  cases hd : dictGet p.actions request.action.id with
  | none => exact writesNonPending_rfl p
  | some a =>
    exact writesNonPending_dictSet p request.action.id _
      (execute_action_nonpending p now _ (by simp)) _ rfl

theorem on_action_rejected_writes (p : EventProcessor)
    (request : ApprovalRequest) :
    WritesNonPending p (p.on_action_rejected request) := by
  rw [EventProcessor.on_action_rejected]
  cases hd : dictGet p.actions request.action.id with
  | none => exact writesNonPending_rfl p
  | some a =>
    exact writesNonPending_dictSet p request.action.id _ (by simp) _ rfl

theorem approve_action_writes (p : EventProcessor) (action_id : String)
    (now : Nat) :
    WritesNonPending p (p.approve_action action_id now).2 := by
  rw [EventProcessor.approve_action]
  cases hd : dictGet p.actions action_id with
  | none => exact writesNonPending_rfl p
  | some a =>
    dsimp only
    by_cases hs : a.status = ActionStatus.pending
    · rw [if_pos hs]
      exact writesNonPending_dictSet p action_id _
        (execute_action_nonpending p now _ (by simp)) _ rfl
    · rw [if_neg hs]
      exact writesNonPending_rfl p

theorem reject_action_writes (p : EventProcessor) (action_id : String) :
    WritesNonPending p (p.reject_action action_id).2 := by
  rw [EventProcessor.reject_action]
  cases hd : dictGet p.actions action_id with
  | none => exact writesNonPending_rfl p
  | some a =>
    dsimp only
    by_cases hs : a.status = ActionStatus.pending
    · rw [if_pos hs]
      exact writesNonPending_dictSet p action_id _ (by simp) _ rfl
    · rw [if_neg hs]
      exact writesNonPending_rfl p

theorem run_callbacks_writes (p : EventProcessor) (now : Nat)
    (effects : List Effect) :
    WritesNonPending p (p.run_callbacks now effects) := by
  induction effects generalizing p with
  | nil => exact writesNonPending_rfl p
  | cons e rest ih =>
    have hstep : WritesNonPending p
        (match e with
          | .approvalCallback _ request => p.on_action_approved now request
          | .rejectionCallback _ request => p.on_action_rejected request
          | _ => p) := by
      cases e with
      | approvalCallback i request => exact on_action_approved_writes p now request
      | rejectionCallback i request => exact on_action_rejected_writes p request
      | notifySendApprovalRequest r => exact writesNonPending_rfl p
      | notifyUpdateStatus r a s r2 => exact writesNonPending_rfl p
    exact writesNonPending_trans hstep (ih _)

theorem system_run_writes (sys : System) (op : SysOp) (now : Nat) :
    WritesNonPending sys.proc (sys.run op now).proc := by
  cases op with
  | ledgerApprove request_id approver reason =>
    rw [System.run]
    cases h : sys.svc.approve request_id approver reason now with
    | mk res svc' =>
      cases res with
      | error e => exact writesNonPending_rfl sys.proc
      | ok pr => exact run_callbacks_writes sys.proc now pr.2
  | ledgerReject request_id rejector reason =>
    rw [System.run]
    cases h : sys.svc.reject request_id rejector reason now with
    | mk res svc' =>
      cases res with
      | error e => exact writesNonPending_rfl sys.proc
      | ok pr => exact run_callbacks_writes sys.proc now pr.2
  | expireTick => exact writesNonPending_rfl sys.proc
  | legacyApprove action_id => exact approve_action_writes sys.proc action_id now
  | legacyReject action_id => exact reject_action_writes sys.proc action_id

/-- C9 counterexample: on `sysC9`, rejecting action `a1` through the
legacy path sets it `REJECTED` (terminal); resolving the still-pending
ledger request `r1` afterwards runs `_on_action_approved`, which sets the
same action back to `APPROVED` without checking its current status — a
terminal action moved to an earlier state, refuting the claimed
monotonicity. -/
theorem rejected_action_reapproved_counterexample :
    (dictGet (sysC9.run (.legacyReject "a1") 1).proc.actions "a1").map (·.status) =
      some ActionStatus.rejected ∧
    (dictGet ((sysC9.run (.legacyReject "a1") 1).run
        (.ledgerApprove "r1" "alice" none) 2).proc.actions "a1").map (·.status) =
      some ActionStatus.approved := by
  decide

/-- C9 (amended): no pipeline or ledger-callback operation ever sets an
existing action's status back to `PENDING` — every written status is
`APPROVED`, `EXECUTING`, `SUCCESS`, `FAILED` or `REJECTED`.  However, the
ledger resolution callbacks write unconditionally, so a terminal action
can be re-resolved (e.g. `REJECTED → APPROVED`, see the counterexample);
only the no-re-entry-to-`PENDING` half of the claimed monotonicity holds. -/
theorem no_reenter_pending
    (sys : System) (op : SysOp) (now : Nat) (id : String)
    (a a' : RemediationAction)
    (hbefore : dictGet sys.proc.actions id = some a)
    (hnp : a.status ≠ ActionStatus.pending)
    (hafter : dictGet (sys.run op now).proc.actions id = some a') :
    a'.status ≠ ActionStatus.pending := by
  rcases system_run_writes sys op now id a' hafter with h | h
  · rw [hbefore] at h
    exact (Option.some.inj h) ▸ hnp
  · exact h

/-- Witness for C9 (amended): on `sysW`, approving the stale request
rewrites the terminal action, but its new status is still not `PENDING`. -/
theorem no_reenter_pending_witness :
    dictGet sysW.proc.actions "a1" = some (sampleAction .escalate .success) ∧
    (sampleAction .escalate .success).status ≠ ActionStatus.pending ∧
    dictGet (sysW.run (.ledgerApprove "r1" "alice" none) 3).proc.actions "a1" =
      some sysWFinalAction ∧
    sysWFinalAction.status ≠ ActionStatus.pending :=
  ⟨by decide, by decide, by decide,
    no_reenter_pending sysW (.ledgerApprove "r1" "alice" none) 3 "a1"
      (sampleAction .escalate .success) sysWFinalAction
      (by decide) (by decide) (by decide)⟩

/-! ## Ledger approve idempotence (claim C3) -/

/-- C3 counterexample: approving twice succeeds once, but the second call
fails with the "not found" validation error, not the claimed "not
pending" one — `approve` deletes the request from the pending map, so a
re-approval is indistinguishable from an unknown id. -/
theorem approve_twice_not_found_counterexample :
    ((svcC3.approve "r1" "alice" none 1).1.toOption).isSome = true ∧
    ((svcC3.approve "r1" "alice" none 1).2.approve "r1" "bob" none 2).1 =
      .error (.valueError "Approval request r1 not found") := by
  decide

/-- C3 (amended): `approve` on an unknown request id fails with the
"not found" validation error and leaves the ledger state (hence the
pending set and every request's status) unchanged; calling `approve`
twice on the same id succeeds the first time, and the second call fails
with the "not found" validation error (the request leaves the pending
map in the same step it is approved, so the "not pending" branch is
unreachable for it). -/
theorem approve_unknown_and_twice
    (svc : ApprovalService) (id approver approver2 : String)
    (reason reason2 : Option String) (now now2 : Nat) :
    (dictGet svc.pending_requests id = none →
      svc.approve id approver reason now =
        (.error (.valueError s!"Approval request {id} not found"), svc)) ∧
    (∀ req, dictGet svc.pending_requests id = some req →
      req.status = ApprovalStatus.pending →
      ((svc.approve id approver reason now).1.toOption).isSome = true ∧
      ((svc.approve id approver reason now).2.approve id approver2 reason2 now2).1 =
        .error (.valueError s!"Approval request {id} not found")) := by
  constructor
  · intro h
    simp [ApprovalService.approve, h]
  · intro req hd hp
    constructor
    · simp [ApprovalService.approve, hd, hp, Except.toOption]
    · simp [ApprovalService.approve, hd, hp, dictGet_dictDel]

/-- Witness for C3 (amended): on `svcC3`, an unknown id `zzz` gets "not
found" with no state change, and the double-approve of `r1` succeeds then
gets "not found". -/
theorem approve_unknown_and_twice_witness :
    dictGet svcC3.pending_requests "r1" = some (sampleRequest .pending) ∧
    (sampleRequest .pending).status = ApprovalStatus.pending ∧
    ((svcC3.approve "r1" "alice" none 1).1.toOption).isSome = true ∧
    ((svcC3.approve "r1" "alice" none 1).2.approve "r1" "bob" none 2).1 =
      .error (.valueError s!"Approval request r1 not found") ∧
    dictGet svcC3.pending_requests "zzz" = none ∧
    svcC3.approve "zzz" "alice" none 1 =
      (.error (.valueError s!"Approval request zzz not found"), svcC3) :=
  ⟨by decide, by decide,
    ((approve_unknown_and_twice svcC3 "r1" "alice" "bob" none none 1 2).2
      (sampleRequest .pending) (by decide) (by decide)).1,
    ((approve_unknown_and_twice svcC3 "r1" "alice" "bob" none none 1 2).2
      (sampleRequest .pending) (by decide) (by decide)).2,
    by decide,
    (approve_unknown_and_twice svcC3 "zzz" "alice" "bob" none none 1 2).1 (by decide)⟩

/-! ## request_approval (claim C5) -/

/-- C5 counterexample: at the spec's own warning-severity pending
scenario (rules 1–5 pass, rule 6 fails), the policy evaluator raises
`AttributeError` at the runbook check, and `request_approval` propagates
it: no request is stored in the pending set and none is returned with
status `PENDING`, although the evaluator did not approve. -/
theorem request_approval_evaluator_crash_counterexample :
    ({ has_notifier := true } : ApprovalService).request_approval "r9" 0 (.ok (some "ts"))
        (sampleAction .k8s_restart_pod .pending) (sampleEvent .warning)
        (sampleAnalysis (mkRat 9 10) false) =
      .error (.attributeError "AIAnalysis object has no attribute runbook_id") := by
  decide

/-- C5 (amended): whenever the policy evaluator returns a decision
(rather than raising — see the counterexample and C4): if it approves,
the returned request is `AUTO_APPROVED`, never visits `PENDING`, is not
stored (the ledger state is unchanged), and every registered approval
callback is invoked synchronously before return; otherwise the request
is stored in the pending map keyed by its identifier with
`expires_at = created_at + timeout`, the notification attempt is
recorded exactly when a notifier is attached (its outcome never affects
storage — the conclusion holds for every `notifyResult`), and the
request is returned with status `PENDING`. -/
theorem request_approval_spec
    (svc : ApprovalService) (newId : String) (now : Nat)
    (notifyResult : Except PyError (Option String))
    (action : RemediationAction) (event : Event) (analysis : AIAnalysis)
    (b : Bool) (rs : String)
    (heval : check_auto_approve svc.config action event analysis = .ok (b, rs)) :
    ∃ req svc' effs,
      svc.request_approval newId now notifyResult action event analysis =
        .ok (req, svc', effs) ∧
      req.id = newId ∧
      (b = true →
        req.status = ApprovalStatus.auto_approved ∧
        svc' = svc ∧
        effs = (List.range svc.approval_callbacks).map
          (fun i => Effect.approvalCallback i req)) ∧
      (b = false →
        req.status = ApprovalStatus.pending ∧
        req.created_at = now ∧
        req.expires_at = some (now + svc.config.timeout_minutes) ∧
        svc'.pending_requests = dictSet svc.pending_requests newId req ∧
        dictGet svc'.pending_requests newId = some req ∧
        effs = (if svc.has_notifier then
          [Effect.notifySendApprovalRequest { req with slack_message_ts := none }]
        else [])) := by
  unfold ApprovalService.request_approval
  rw [heval]
  cases b
  · cases hn : svc.has_notifier
    · refine ⟨_, _, _, rfl, rfl, by simp, fun _ => ⟨rfl, rfl, rfl, rfl, ?_, by simp [hn]⟩⟩
      exact (dictGet_dictSet _ _ _ _).trans (if_pos rfl)
    · cases notifyResult with
      | ok ts =>
        refine ⟨_, _, _, rfl, rfl, by simp, fun _ => ⟨rfl, rfl, rfl, rfl, ?_, by simp [hn]⟩⟩
        exact (dictGet_dictSet _ _ _ _).trans (if_pos rfl)
      | error e =>
        refine ⟨_, _, _, rfl, rfl, by simp, fun _ => ⟨rfl, rfl, rfl, rfl, ?_, by simp [hn]⟩⟩
        exact (dictGet_dictSet _ _ _ _).trans (if_pos rfl)
  · exact ⟨_, _, _, rfl, rfl, fun _ => ⟨rfl, rfl, rfl⟩, by simp⟩

/-- Witness for C5 (amended), non-approving branch: an analyzer-flagged
analysis is vetoed by rule 2; `request_approval` stores the request and
returns it `PENDING`. -/
theorem request_approval_spec_witness :
    check_auto_approve svcC5.config (sampleAction .k8s_restart_pod .pending)
        (sampleEvent .warning) (sampleAnalysis (mkRat 9 10) true) =
      .ok (false, "AI analysis recommends manual approval") ∧
    (∃ req svc' effs,
      svcC5.request_approval "n1" 5 (.ok (some "ts9"))
          (sampleAction .k8s_restart_pod .pending) (sampleEvent .warning)
          (sampleAnalysis (mkRat 9 10) true) =
        .ok (req, svc', effs) ∧
      req.id = "n1" ∧
      (false = true →
        req.status = ApprovalStatus.auto_approved ∧
        svc' = svcC5 ∧
        effs = (List.range svcC5.approval_callbacks).map
          (fun i => Effect.approvalCallback i req)) ∧
      (false = false →
        req.status = ApprovalStatus.pending ∧
        req.created_at = 5 ∧
        req.expires_at = some (5 + svcC5.config.timeout_minutes) ∧
        svc'.pending_requests = dictSet svcC5.pending_requests "n1" req ∧
        dictGet svc'.pending_requests "n1" = some req ∧
        effs = (if svcC5.has_notifier then
          [Effect.notifySendApprovalRequest { req with slack_message_ts := none }]
        else []))) :=
  ⟨by decide,
    request_approval_spec svcC5 "n1" 5 (.ok (some "ts9"))
      (sampleAction .k8s_restart_pod .pending) (sampleEvent .warning)
      (sampleAnalysis (mkRat 9 10) true) false
      "AI analysis recommends manual approval" (by decide)⟩

/-! ## Expiry sweep lemmas (claims C2, C10) -/

/-- One expired item: the step's exact output. -/
theorem expireStep_expired_eq (now : Nat) (s : ApprovalService)
    (effs : List Effect) (expired : List (String × ApprovalRequest))
    (id : String) (req : ApprovalRequest) (t : Nat)
    (hexp : req.expires_at = some t) (ht : t < now) :
    expireStep now (s, effs, expired) (id, req) =
      ({ s with pending_requests := dictDel s.pending_requests id },
       effs ++
         (if s.has_notifier ∧ pyTruthyStr req.slack_message_ts then
           [Effect.notifyUpdateStatus { req with status := ApprovalStatus.expired }
             false "system" (some "Request expired")]
         else []),
       expired ++ [(id, { req with status := ApprovalStatus.expired })]) := by
  rw [expireStep]
  dsimp only
  rw [hexp]
  dsimp only
  rw [if_pos ht]

theorem expireStep_has_notifier (now : Nat)
    (acc : ApprovalService × List Effect × List (String × ApprovalRequest))
    (kv : String × ApprovalRequest) :
    (expireStep now acc kv).1.has_notifier = acc.1.has_notifier := by
  rcases acc with ⟨s, effs, expired⟩
  rcases kv with ⟨kid, kreq⟩
  rw [expireStep]
  dsimp only
  cases he : kreq.expires_at with
  | none => rfl
  | some t =>
    dsimp only
    by_cases hgt : now > t
    · rw [if_pos hgt]
    · rw [if_neg hgt]

theorem expireStep_pending_none (now : Nat)
    (acc : ApprovalService × List Effect × List (String × ApprovalRequest))
    (kv : String × ApprovalRequest) (id : String)
    (h : dictGet acc.1.pending_requests id = none) :
    dictGet (expireStep now acc kv).1.pending_requests id = none := by
  rcases acc with ⟨s, effs, expired⟩
  rcases kv with ⟨kid, kreq⟩
  rw [expireStep]
  dsimp only
  cases he : kreq.expires_at with
  | none => exact h
  | some t =>
    dsimp only
    by_cases hgt : now > t
    · rw [if_pos hgt]
      dsimp only
      rw [dictGet_dictDel]
      by_cases hik : id = kid
      · rw [if_pos hik]
      · rw [if_neg hik]; exact h
    · rw [if_neg hgt]; exact h

theorem expireStep_pending_mem (now : Nat)
    (acc : ApprovalService × List Effect × List (String × ApprovalRequest))
    (kv kv' : String × ApprovalRequest)
    (h : kv' ∈ (expireStep now acc kv).1.pending_requests) :
    kv' ∈ acc.1.pending_requests := by
  rcases acc with ⟨s, effs, expired⟩
  rcases kv with ⟨kid, kreq⟩
  rw [expireStep] at h
  dsimp only at h
  cases he : kreq.expires_at with
  | none => rw [he] at h; exact h
  | some t =>
    rw [he] at h
    dsimp only at h
    by_cases hgt : now > t
    · rw [if_pos hgt] at h
      exact mem_dictDel h
    · rw [if_neg hgt] at h; exact h

theorem expireStep_effects_mem (now : Nat)
    (acc : ApprovalService × List Effect × List (String × ApprovalRequest))
    (kv : String × ApprovalRequest) (e : Effect) (h : e ∈ acc.2.1) :
    e ∈ (expireStep now acc kv).2.1 := by
  rcases acc with ⟨s, effs, expired⟩
  rcases kv with ⟨kid, kreq⟩
  rw [expireStep]
  dsimp only
  cases he : kreq.expires_at with
  | none => exact h
  | some t =>
    dsimp only
    by_cases hgt : now > t
    · rw [if_pos hgt]
      exact List.mem_append_left _ h
    · rw [if_neg hgt]; exact h

theorem expireStep_expired_mem (now : Nat)
    (acc : ApprovalService × List Effect × List (String × ApprovalRequest))
    (kv : String × ApprovalRequest) (x : String × ApprovalRequest)
    (h : x ∈ acc.2.2) :
    x ∈ (expireStep now acc kv).2.2 := by
  rcases acc with ⟨s, effs, expired⟩
  rcases kv with ⟨kid, kreq⟩
  rw [expireStep]
  dsimp only
  cases he : kreq.expires_at with
  | none => exact h
  | some t =>
    dsimp only
    by_cases hgt : now > t
    · rw [if_pos hgt]
      exact List.mem_append_left _ h
    · rw [if_neg hgt]; exact h

theorem expireStep_effects_shape (now : Nat)
    (acc : ApprovalService × List Effect × List (String × ApprovalRequest))
    (kv : String × ApprovalRequest)
    (h : ∀ e ∈ acc.2.1, notifyOnlyEffect e = true) :
    ∀ e ∈ (expireStep now acc kv).2.1, notifyOnlyEffect e = true := by
  rcases acc with ⟨s, effs, expired⟩
  rcases kv with ⟨kid, kreq⟩
  rw [expireStep]
  dsimp only
  cases he : kreq.expires_at with
  | none => exact h
  | some t =>
    dsimp only
    by_cases hgt : now > t
    · rw [if_pos hgt]
      intro e he'
      rcases List.mem_append.mp he' with he' | he'
      · exact h e he'
      · by_cases hc : ({ s with
            pending_requests := dictDel s.pending_requests kid }).has_notifier
              ∧ pyTruthyStr kreq.slack_message_ts
        · rw [if_pos hc] at he'
          rcases List.mem_cons.mp he' with rfl | he'
          · rfl
          · exact absurd he' (List.not_mem_nil _)
        · rw [if_neg hc] at he'
          exact absurd he' (List.not_mem_nil _)
    · rw [if_neg hgt]; exact h

theorem foldl_expire_has_notifier (now : Nat)
    (l : List (String × ApprovalRequest))
    (acc : ApprovalService × List Effect × List (String × ApprovalRequest)) :
    (l.foldl (expireStep now) acc).1.has_notifier = acc.1.has_notifier := by
  induction l generalizing acc with
  | nil => rfl
  | cons kv rest ih =>
    rw [List.foldl_cons, ih, expireStep_has_notifier]

theorem foldl_expire_pending_none (now : Nat)
    (l : List (String × ApprovalRequest))
    (acc : ApprovalService × List Effect × List (String × ApprovalRequest))
    (id : String) (h : dictGet acc.1.pending_requests id = none) :
    dictGet (l.foldl (expireStep now) acc).1.pending_requests id = none := by
  induction l generalizing acc with
  | nil => exact h
  | cons kv rest ih =>
    rw [List.foldl_cons]
    exact ih _ (expireStep_pending_none now acc kv id h)

theorem foldl_expire_pending_mem (now : Nat)
    (l : List (String × ApprovalRequest))
    (acc : ApprovalService × List Effect × List (String × ApprovalRequest))
    (kv' : String × ApprovalRequest)
    (h : kv' ∈ (l.foldl (expireStep now) acc).1.pending_requests) :
    kv' ∈ acc.1.pending_requests := by
  induction l generalizing acc with
  | nil => exact h
  | cons kv rest ih =>
    rw [List.foldl_cons] at h
    exact expireStep_pending_mem now acc kv kv' (ih _ h)

theorem foldl_expire_effects_mem (now : Nat)
    (l : List (String × ApprovalRequest))
    (acc : ApprovalService × List Effect × List (String × ApprovalRequest))
    (e : Effect) (h : e ∈ acc.2.1) :
    e ∈ (l.foldl (expireStep now) acc).2.1 := by
  induction l generalizing acc with
  | nil => exact h
  | cons kv rest ih =>
    rw [List.foldl_cons]
    exact ih _ (expireStep_effects_mem now acc kv e h)

theorem foldl_expire_expired_mem (now : Nat)
    (l : List (String × ApprovalRequest))
    (acc : ApprovalService × List Effect × List (String × ApprovalRequest))
    (x : String × ApprovalRequest) (h : x ∈ acc.2.2) :
    x ∈ (l.foldl (expireStep now) acc).2.2 := by
  induction l generalizing acc with
  | nil => exact h
  | cons kv rest ih =>
    rw [List.foldl_cons]
    exact ih _ (expireStep_expired_mem now acc kv x h)

theorem foldl_expire_effects_shape (now : Nat)
    (l : List (String × ApprovalRequest))
    (acc : ApprovalService × List Effect × List (String × ApprovalRequest))
    (h : ∀ e ∈ acc.2.1, notifyOnlyEffect e = true) :
    ∀ e ∈ (l.foldl (expireStep now) acc).2.1, notifyOnlyEffect e = true := by
  induction l generalizing acc with
  | nil => exact h
  | cons kv rest ih =>
    rw [List.foldl_cons]
    exact ih _ (expireStep_effects_shape now acc kv h)

/-- Every expired member of the snapshot is fully processed by the fold,
wherever it sits in the list and whatever has been processed before it. -/
theorem foldl_expire_processes (now : Nat)
    (l : List (String × ApprovalRequest)) (id : String)
    (req : ApprovalRequest) (t : Nat)
    (hexp : req.expires_at = some t) (ht : t < now) :
    ∀ acc, (id, req) ∈ l →
      dictGet (l.foldl (expireStep now) acc).1.pending_requests id = none ∧
      (id, { req with status := ApprovalStatus.expired }) ∈
        (l.foldl (expireStep now) acc).2.2 ∧
      (acc.1.has_notifier = true → pyTruthyStr req.slack_message_ts = true →
        Effect.notifyUpdateStatus { req with status := ApprovalStatus.expired }
          false "system" (some "Request expired") ∈
          (l.foldl (expireStep now) acc).2.1) := by
  induction l with
  | nil =>
    intro acc hmem
    exact absurd hmem (List.not_mem_nil _)
  | cons kv rest ih =>
    intro acc hmem
    rw [List.foldl_cons]
    rcases List.mem_cons.mp hmem with heq | hmem'
    · rcases acc with ⟨s, effs, expired⟩
      rw [← heq, expireStep_expired_eq now s effs expired id req t hexp ht]
      refine ⟨?_, ?_, ?_⟩
      · apply foldl_expire_pending_none
        dsimp only
        rw [dictGet_dictDel, if_pos rfl]
      · apply foldl_expire_expired_mem
        dsimp only
        exact List.mem_append_right _ (List.mem_cons_self _ _)
      · intro hn hts
        apply foldl_expire_effects_mem
        dsimp only
        dsimp only at hn
        rw [if_pos ⟨hn, hts⟩]
        exact List.mem_append_right _ (List.mem_cons_self _ _)
    · have hstep := ih (expireStep now acc kv) hmem'
      refine ⟨hstep.1, hstep.2.1, ?_⟩
      intro hn hts
      exact hstep.2.2 (by rw [expireStep_has_notifier]; exact hn) hts

/-- C2 counterexample: `svcC2` has one registered rejection callback and
one pending request expired at tick time 100; the sweep expires and
removes the request and attempts the notification, but its effects
contain **no** rejection-callback invocation — the code never notifies
the rejection callbacks on expiry, so "invokes every registered rejection
callback exactly once" fails (zero invocations instead of one). -/
theorem expire_no_rejection_callbacks_counterexample :
    svcC2.rejection_callbacks = 1 ∧
    (sampleRequest .pending).expires_at = some 30 ∧
    dictGet (svcC2.expire_old_requests 100).1.pending_requests "r1" = none ∧
    (svcC2.expire_old_requests 100).2.2.map Prod.fst = ["r1"] ∧
    ((svcC2.expire_old_requests 100).2.1.filter
      (fun e => match e with
        | Effect.rejectionCallback _ _ => true
        | _ => false)) = [] := by
  decide

/-- C2 (amended): for every request in the pending set whose
`expires_at` lies in the past, one sweeper tick sets its status to
`EXPIRED`, removes it from the pending set and attempts a best-effort
notification update (whose failure is caught and logged, so it cannot
affect the processing of any request), and this holds for every such
request in the same tick; however the tick invokes **no** rejection
callbacks (nor any other callback) — every effect it emits is a
notification update. -/
theorem expire_old_requests_spec
    (svc : ApprovalService) (now : Nat) (id : String) (req : ApprovalRequest)
    (t : Nat) (hmem : (id, req) ∈ svc.pending_requests)
    (hexp : req.expires_at = some t) (ht : t < now) :
    dictGet (svc.expire_old_requests now).1.pending_requests id = none ∧
    (id, { req with status := ApprovalStatus.expired }) ∈
      (svc.expire_old_requests now).2.2 ∧
    (svc.has_notifier = true → pyTruthyStr req.slack_message_ts = true →
      Effect.notifyUpdateStatus { req with status := ApprovalStatus.expired }
        false "system" (some "Request expired") ∈ (svc.expire_old_requests now).2.1) ∧
    (∀ e ∈ (svc.expire_old_requests now).2.1, notifyOnlyEffect e = true) := by
  have hmain := foldl_expire_processes now svc.pending_requests id req t hexp ht
    (svc, [], []) hmem
  refine ⟨hmain.1, hmain.2.1, hmain.2.2, ?_⟩
  exact foldl_expire_effects_shape now svc.pending_requests (svc, [], [])
    (fun e he => absurd he (List.not_mem_nil _))

/-- Witness for C2 (amended): on `svcC2` at tick time 100, request `r1`
(expired at 30) is removed, recorded as expired, its notification update
is attempted, and every effect of the tick is a notification update. -/
theorem expire_old_requests_spec_witness :
    ("r1", sampleRequest .pending) ∈ svcC2.pending_requests ∧
    (sampleRequest .pending).expires_at = some 30 ∧
    (30 : Nat) < 100 ∧
    dictGet (svcC2.expire_old_requests 100).1.pending_requests "r1" = none ∧
    ("r1", { sampleRequest .pending with status := ApprovalStatus.expired }) ∈
      (svcC2.expire_old_requests 100).2.2 ∧
    (svcC2.has_notifier = true →
      pyTruthyStr (sampleRequest .pending).slack_message_ts = true →
      Effect.notifyUpdateStatus
          { sampleRequest .pending with status := ApprovalStatus.expired }
          false "system" (some "Request expired") ∈
        (svcC2.expire_old_requests 100).2.1) ∧
    (∀ e ∈ (svcC2.expire_old_requests 100).2.1, notifyOnlyEffect e = true) := by
  have h := expire_old_requests_spec svcC2 100 "r1" (sampleRequest .pending) 30
    (by decide) (by decide) (by decide)
  exact ⟨by decide, by decide, by decide, h.1, h.2.1, h.2.2.1, h.2.2.2⟩

/-! ## Ledger pending-map invariant (claim C10) -/

/-- `request_approval`, when it returns, either auto-approved and left
the ledger untouched, or stored the returned request (status `PENDING`)
under the new id. -/
theorem request_approval_cases
    (svc : ApprovalService) (newId : String) (now : Nat)
    (notifyResult : Except PyError (Option String))
    (action : RemediationAction) (event : Event) (analysis : AIAnalysis)
    (req : ApprovalRequest) (svc' : ApprovalService) (effs : List Effect)
    (h : svc.request_approval newId now notifyResult action event analysis =
      .ok (req, svc', effs)) :
    (req.status = ApprovalStatus.auto_approved ∧ svc' = svc) ∨
    (req.status = ApprovalStatus.pending ∧
      svc'.pending_requests = dictSet svc.pending_requests newId req) := by
  unfold ApprovalService.request_approval at h
  cases hc : check_auto_approve svc.config action event analysis with
  | error e =>
    rw [hc] at h
    exact Except.noConfusion h
  | ok br =>
    rw [hc] at h
    rcases br with ⟨b, rs⟩
    cases b
    · right
      cases hn : svc.has_notifier
      · rw [hn] at h
        have h' := Except.ok.inj h
        injection h' with h1 h'
        injection h' with h2 h3
        subst h1
        subst h2
        exact ⟨rfl, rfl⟩
      · cases notifyResult with
        | ok ts =>
          rw [hn] at h
          have h' := Except.ok.inj h
          injection h' with h1 h'
          injection h' with h2 h3
          subst h1
          subst h2
          exact ⟨rfl, rfl⟩
        | error e =>
          rw [hn] at h
          have h' := Except.ok.inj h
          injection h' with h1 h'
          injection h' with h2 h3
          subst h1
          subst h2
          exact ⟨rfl, rfl⟩
    · left
      have h' := Except.ok.inj h
      injection h' with h1 h'
      injection h' with h2 h3
      subst h1
      subst h2
      exact ⟨rfl, rfl⟩

/-- C10: every request stored in the ledger's pending map has status
`PENDING`; `request_approval` preserves this (auto-approved requests are
never stored: the ledger state is unchanged, so a fresh id stays
unretrievable); `approve` and `reject`, when they succeed, remove the
request from the pending map in the same step, after which `get_request`
returns nothing for it; and one sweeper tick preserves the invariant and
makes every expired request unretrievable. -/
theorem ledger_pending_invariant (svc : ApprovalService) (hwf : LedgerWF svc) :
    (∀ id req, svc.get_request id = some req →
      req.status = ApprovalStatus.pending) ∧
    (∀ newId now notifyResult action event analysis req svc' effs,
      svc.request_approval newId now notifyResult action event analysis =
        .ok (req, svc', effs) →
      LedgerWF svc' ∧
      (req.status = ApprovalStatus.auto_approved → svc' = svc ∧
        (dictGet svc.pending_requests newId = none →
          svc'.get_request newId = none))) ∧
    (∀ id approver reason now resp effs,
      (svc.approve id approver reason now).1 = .ok (resp, effs) →
      LedgerWF (svc.approve id approver reason now).2 ∧
      (svc.approve id approver reason now).2.get_request id = none) ∧
    (∀ id rejector reason now resp effs,
      (svc.reject id rejector reason now).1 = .ok (resp, effs) →
      LedgerWF (svc.reject id rejector reason now).2 ∧
      (svc.reject id rejector reason now).2.get_request id = none) ∧
    (∀ now, LedgerWF (svc.expire_old_requests now).1 ∧
      (∀ id req t, (id, req) ∈ svc.pending_requests →
        req.expires_at = some t → t < now →
        (svc.expire_old_requests now).1.get_request id = none)) := by
  refine ⟨?_, ?_, ?_, ?_, ?_⟩
  · intro id req h
    exact hwf _ (dictGet_mem h)
  · intro newId now notifyResult action event analysis req svc' effs h
    rcases request_approval_cases svc newId now notifyResult action event analysis
      req svc' effs h with ⟨hst, hsvc⟩ | ⟨hst, hpend⟩
    · subst hsvc
      refine ⟨hwf, fun _ => ⟨rfl, fun hfresh => hfresh⟩⟩
    · constructor
      · intro kv hkv
        rw [hpend] at hkv
        rcases mem_dictSet hkv with rfl | hkv'
        · exact hst
        · exact hwf _ hkv'
      · intro habs
        rw [hst] at habs
        exact absurd habs (by decide)
  · intro id approver reason now resp effs h
    cases hd : dictGet svc.pending_requests id with
    | none => simp [ApprovalService.approve, hd] at h
    | some req =>
      by_cases hp : req.status = ApprovalStatus.pending
      · have h2 : (svc.approve id approver reason now).2 =
            { svc with pending_requests := dictDel svc.pending_requests id } := by
          simp [ApprovalService.approve, hd, hp]
        rw [h2]
        constructor
        · intro kv hkv
          exact hwf _ (mem_dictDel hkv)
        · show dictGet (dictDel svc.pending_requests id) id = none
          rw [dictGet_dictDel, if_pos rfl]
      · simp [ApprovalService.approve, hd, hp] at h
  · intro id rejector reason now resp effs h
    cases hd : dictGet svc.pending_requests id with
    | none => simp [ApprovalService.reject, hd] at h
    | some req =>
      by_cases hp : req.status = ApprovalStatus.pending
      · have h2 : (svc.reject id rejector reason now).2 =
            { svc with pending_requests := dictDel svc.pending_requests id } := by
          simp [ApprovalService.reject, hd, hp]
        rw [h2]
        constructor
        · intro kv hkv
          exact hwf _ (mem_dictDel hkv)
        · show dictGet (dictDel svc.pending_requests id) id = none
          rw [dictGet_dictDel, if_pos rfl]
      · simp [ApprovalService.reject, hd, hp] at h
  · intro now
    constructor
    · intro kv hkv
      exact hwf _ (foldl_expire_pending_mem now svc.pending_requests _ kv hkv)
    · intro id req t hmem hexp ht
      exact (foldl_expire_processes now svc.pending_requests id req t hexp ht
        (svc, [], []) hmem).1

/-- Witness for C10: `ledger_pending_invariant` applied to `svcW10`,
whose well-formedness is decided. -/
theorem ledger_pending_invariant_witness :
    LedgerWF svcW10 ∧
    ((∀ id req, svcW10.get_request id = some req →
      req.status = ApprovalStatus.pending) ∧
    (∀ newId now notifyResult action event analysis req svc' effs,
      svcW10.request_approval newId now notifyResult action event analysis =
        .ok (req, svc', effs) →
      LedgerWF svc' ∧
      (req.status = ApprovalStatus.auto_approved → svc' = svcW10 ∧
        (dictGet svcW10.pending_requests newId = none →
          svc'.get_request newId = none))) ∧
    (∀ id approver reason now resp effs,
      (svcW10.approve id approver reason now).1 = .ok (resp, effs) →
      LedgerWF (svcW10.approve id approver reason now).2 ∧
      (svcW10.approve id approver reason now).2.get_request id = none) ∧
    (∀ id rejector reason now resp effs,
      (svcW10.reject id rejector reason now).1 = .ok (resp, effs) →
      LedgerWF (svcW10.reject id rejector reason now).2 ∧
      (svcW10.reject id rejector reason now).2.get_request id = none) ∧
    (∀ now, LedgerWF (svcW10.expire_old_requests now).1 ∧
      (∀ id req t, (id, req) ∈ svcW10.pending_requests →
        req.expires_at = some t → t < now →
        (svcW10.expire_old_requests now).1.get_request id = none))) :=
  ⟨fun kv hkv => by
      rcases List.mem_cons.mp hkv with rfl | hkv'
      · rfl
      · exact absurd hkv' (List.not_mem_nil _),
    ledger_pending_invariant svcW10 (fun kv hkv => by
      rcases List.mem_cons.mp hkv with rfl | hkv'
      · rfl
      · exact absurd hkv' (List.not_mem_nil _))⟩

end NocAI
